import Mathlib

set_option maxRecDepth 16384

/-!
Shallow embedding of the Game Boy emulator core (src/cpu/mod.rs, src/ppu/mod.rs,
src/memory/mod.rs) and proofs about its specification claims.

Conventions of the embedding:
* Machine integers are modelled as `Nat` (registers hold byte values, PC/SP hold
  16-bit values).  Rust's plain `+` on a sized integer is a checked add: it
  panics when the mathematical result exceeds the type's range (this is the
  semantics of the default, overflow-checked build).  Panics are modelled by
  `Option`: a function that can panic returns `none` in exactly the panicking
  cases.  `wrapping_add` / `wrapping_sub` are modelled with explicit `% 2^w`.
* `Vec<u8>` fields of fixed size (RAM banks, VRAM, OAM, the frame buffer) are
  modelled as total functions `Nat → Nat`; the ROM, whose length matters for
  out-of-bounds panics, is a `List Nat` indexed with `List.get?`.
* `log::info!` / `log::error!` calls are no-ops, except that expressions
  evaluated outside the macros (the `peek_next_opcodes` let-binding in
  `Cpu::step`) are retained because they can panic.
-/

/-- Pointwise update of a function-modelled byte array (one `arr[i] = v` store). -/
def fupd (f : Nat → Nat) (i v : Nat) : Nat → Nat :=
  fun j => if j = i then v else f j

/-- Models `slice[start..stop].fill(v)`. -/
def fillRange (f : Nat → Nat) (start stop v : Nat) : Nat → Nat :=
  fun j => if start ≤ j ∧ j < stop then v else f j

/-- Checked 16-bit addition result: Rust `+` on `u16` panics above 0xFFFF. -/
def chk16 (n : Nat) : Option Nat :=
  if n ≤ 0xFFFF then some n else none

/-- `x as i8` reinterpretation of a byte (two's complement). -/
def toI8 (b : Nat) : Int :=
  if b < 128 then (b : Int) else (b : Int) - 256

/-- `x as i16` reinterpretation of a 16-bit value (two's complement). -/
def toI16 (w : Nat) : Int :=
  if w < 32768 then (w : Int) else (w : Int) - 65536

/-- Checked `i16` addition result: Rust `+` on `i16` panics outside the range. -/
def chkI16 (x : Int) : Option Int :=
  if -32768 ≤ x ∧ x ≤ 32767 then some x else none

/-- `x as u16` for a signed 16-bit value: reduce modulo 2^16. -/
def i16ToU16 (x : Int) : Nat :=
  (x % 65536).toNat

/-- `u16::wrapping_add`. -/
def wadd16 (x y : Nat) : Nat :=
  (x + y) % 65536

/-- `u16::wrapping_sub` (arguments are 16-bit values). -/
def wsub16 (x y : Nat) : Nat :=
  (x % 65536 + 65536 - y % 65536) % 65536

/-- PPU state, from `pub struct Ppu` in src/ppu/mod.rs. -/
structure Ppu where
  mode : Nat
  mode_clock : Nat
  line : Nat
  vram : Nat → Nat
  oam : Nat → Nat
  frame_buffer : Nat → Nat
  lcdc : Nat
  scx : Nat
  scy : Nat
  bgp : Nat
  stat : Nat
  vblank_interrupt : Bool
  wx : Nat
  wy : Nat
  obp0 : Nat
  obp1 : Nat

/-- `Ppu::new`. -/
def Ppu.new : Ppu where
  mode := 2
  mode_clock := 0
  line := 0
  vram := fun _ => 0
  oam := fun _ => 0
  frame_buffer := fun _ => 0
  lcdc := 0x91
  scx := 0
  scy := 0
  bgp := 0xFC
  stat := 0x85
  vblank_interrupt := false
  wx := 0
  wy := 0
  obp0 := 0xFF
  obp1 := 0xFF

/-- Tile-data address resolution, the shared
`if use_signed { 0x1000 + ((signed_idx as i16 + 128) * 16) as usize } else { tile_idx * 16 }`
expression of `render_scanline` / `render_window`.  The signed intermediate is
in `[0, 4080]`, so the `usize` cast is exact. -/
def tileDataAddr (use_signed : Bool) (tile_idx : Nat) : Nat :=
  if use_signed then 0x1000 + ((toI8 tile_idx + 128) * 16).toNat
  else tile_idx * 16

/-- The background pass of `Ppu::render_scanline` (the `lcdc & 0x01 != 0` loop),
threading the frame buffer. -/
def Ppu.renderBg (p : Ppu) (fb : Nat → Nat) : Nat → Nat :=
  let bg_map_addr := if p.lcdc &&& 0x08 = 0 then 0x1800 else 0x1C00
  let use_signed := p.lcdc &&& 0x10 = 0
  let y := (p.line + p.scy) &&& 0xFF
  let tile_y := y / 8
  let tile_line := y % 8
  (List.range 160).foldl
    (fun fb x =>
      let bg_x := (x + p.scx) &&& 0xFF
      let tile_x := bg_x / 8
      let pixel_x := 7 - bg_x % 8
      let map_addr := bg_map_addr + tile_y * 32 + tile_x
      if map_addr ≥ 0x2000 then fb
      else
        let tile_idx := p.vram map_addr
        let tile_addr := tileDataAddr use_signed tile_idx
        if tile_addr + tile_line * 2 + 1 ≥ 0x2000 then fb
        else
          let byte1 := p.vram (tile_addr + tile_line * 2)
          let byte2 := p.vram (tile_addr + tile_line * 2 + 1)
          let bit1 := (byte1 >>> pixel_x) &&& 1
          let bit2 := (byte2 >>> pixel_x) &&& 1
          let color_idx := (bit2 <<< 1) ||| bit1
          let color := (p.bgp >>> (color_idx * 2)) &&& 0x03
          let fb_idx := p.line * 160 + x
          if fb_idx < 23040 then fupd fb fb_idx color else fb)
    fb

/-- `Ppu::render_window`, threading the frame buffer.
`self.wx.wrapping_sub(7)` is `(wx + 249) % 256`. -/
def Ppu.renderWindowPass (p : Ppu) (fb : Nat → Nat) : Nat → Nat :=
  if p.line < p.wy then fb
  else
    let window_map_addr := if p.lcdc &&& 0x40 = 0 then 0x1800 else 0x1C00
    let use_signed := p.lcdc &&& 0x10 = 0
    let window_y := p.line - p.wy
    let tile_y := window_y / 8
    let tile_line := window_y % 8
    let window_x_start := (p.wx + 249) % 256
    (List.range 160).foldl
      (fun fb screen_x =>
        if screen_x < window_x_start then fb
        else
          let window_x := screen_x - window_x_start
          let tile_x := window_x / 8
          let pixel_x := 7 - window_x % 8
          let map_addr := window_map_addr + tile_y * 32 + tile_x
          if map_addr ≥ 0x2000 then fb
          else
            let tile_idx := p.vram map_addr
            let tile_addr := tileDataAddr use_signed tile_idx
            if tile_addr + tile_line * 2 + 1 ≥ 0x2000 then fb
            else
              let byte1 := p.vram (tile_addr + tile_line * 2)
              let byte2 := p.vram (tile_addr + tile_line * 2 + 1)
              let bit1 := (byte1 >>> pixel_x) &&& 1
              let bit2 := (byte2 >>> pixel_x) &&& 1
              let color_idx := (bit2 <<< 1) ||| bit1
              if color_idx = 0 then fb
              else
                let color := (p.bgp >>> (color_idx * 2)) &&& 0x03
                fupd fb (p.line * 160 + screen_x) color)
      fb

/-- One OAM entry as collected by `render_sprites` (the local `struct Sprite`). -/
structure Sprite where
  y : Int
  x : Int
  tile_idx : Nat
  attributes : Nat

/-- Stable insertion by ascending `x`: an element is placed before the first
element whose `x` is not smaller, so among equal `x` the earlier (OAM-order)
element stays first — extensionally the stable `sort_by(a.x.cmp(&b.x))`. -/
def insertByX (s : Sprite) : List Sprite → List Sprite
  | [] => [s]
  | t :: ts => if s.x ≤ t.x then s :: t :: ts else t :: insertByX s ts

/-- Stable sort of the visible-sprite list by ascending `x`. -/
def sortByX : List Sprite → List Sprite
  | [] => []
  | s :: ss => insertByX s (sortByX ss)

/-- Drawing of one sprite row by `render_sprites`.  A negative `sprite_line`
would wrap to a huge `usize` in `sprite_line as usize * 2` and fail the
`tile_addr + 1 >= 0x2000` bounds check, hence the explicit `sl < 0` disjunct. -/
def Ppu.drawSprite (p : Ppu) (height : Nat) (fb : Nat → Nat) (s : Sprite) : Nat → Nat :=
  let sl0 : Int :=
    if s.attributes &&& 0x40 ≠ 0 then (height : Int) - 1 - ((p.line : Int) - s.y)
    else (p.line : Int) - s.y
  let ts : Nat × Int :=
    if height = 16 then
      let t := s.tile_idx &&& 0xFE
      if sl0 ≥ 8 then (t + 1, sl0 - 8) else (t, sl0)
    else (s.tile_idx, sl0)
  let tile := ts.1
  let sl := ts.2
  let tile_addr := tile * 16 + sl.toNat * 2
  if sl < 0 ∨ tile_addr + 1 ≥ 0x2000 then fb
  else
    let byte1 := p.vram tile_addr
    let byte2 := p.vram (tile_addr + 1)
    (List.range 8).foldl
      (fun fb (pixel : Nat) =>
        let x : Int := s.x + (pixel : Int)
        if x < 0 ∨ x ≥ 160 then fb
        else
          let bit_pos := if s.attributes &&& 0x20 ≠ 0 then pixel else 7 - pixel
          let bit1 := (byte1 >>> bit_pos) &&& 1
          let bit2 := (byte2 >>> bit_pos) &&& 1
          let color_idx := (bit2 <<< 1) ||| bit1
          if color_idx = 0 then fb
          else
            let fb_idx := p.line * 160 + x.toNat
            let bg_color := fb fb_idx &&& 0x03
            if s.attributes &&& 0x80 ≠ 0 ∧ bg_color ≠ 0 then fb
            else
              let palette := if s.attributes &&& 0x10 ≠ 0 then p.obp1 else p.obp0
              let color := (palette >>> (color_idx * 2)) &&& 0x03
              fupd fb fb_idx color)
      fb

/-- `Ppu::render_sprites`, threading the frame buffer.  The source loop pushes
visible sprites in OAM order and breaks right after the tenth push, which is
the first ten elements of the filtered list. -/
def Ppu.renderSpritesPass (p : Ppu) (fb : Nat → Nat) : Nat → Nat :=
  if p.lcdc &&& 0x02 = 0 then fb
  else
    let height : Nat := if p.lcdc &&& 0x04 = 0 then 8 else 16
    let visible :=
      ((List.range 40).filterMap fun i =>
        let y_pos : Int := (p.oam (i * 4) : Int) - 16
        let x_pos : Int := (p.oam (i * 4 + 1) : Int) - 8
        if (p.line : Int) ≥ y_pos ∧ (p.line : Int) < y_pos + (height : Int) then
          some ⟨y_pos, x_pos, p.oam (i * 4 + 2), p.oam (i * 4 + 3)⟩
        else none).take 10
    let sorted := sortByX visible
    sorted.reverse.foldl (fun fb s => p.drawSprite height fb s) fb

/-- `Ppu::render_scanline`.  The frame buffer has 160 * 144 = 23040 entries, so
`frame_buffer[start..end].fill(0)` (executed by both the LCD-off and LCD-on
paths before anything else) panics exactly when `line ≥ 144`. -/
def Ppu.render_scanline (p : Ppu) : Option Ppu :=
  let start := p.line * 160
  if start + 160 > 23040 then none
  else if p.lcdc &&& 0x80 = 0 then
    some { p with frame_buffer := fillRange p.frame_buffer start (start + 160) 0 }
  else
    let fb := fillRange p.frame_buffer start (start + 160) 0
    let fb := if p.lcdc &&& 0x01 ≠ 0 then p.renderBg fb else fb
    let fb := if p.lcdc &&& 0x20 ≠ 0 then p.renderWindowPass fb else fb
    let fb := if p.lcdc &&& 0x02 ≠ 0 then p.renderSpritesPass fb else fb
    some { p with frame_buffer := fb }

/-- `Ppu::step(cycles)`.  `mode_clock += cycles` is a checked `u32` add,
`self.line += 1` a checked `u8` add, and the `_ => unreachable!()` arm of the
mode match is a panic; all three are `none` cases. -/
def Ppu.step (cycles : Nat) (p : Ppu) : Option Ppu := do
  if p.mode_clock + cycles ≥ 4294967296 then none
  else
    -- the source first executes `self.mode_clock += cycles`; `clk` is that
    -- updated clock, and every arm below either resets it to 0 or keeps it
    let clk := p.mode_clock + cycles
    -- the source `match self.mode` over the disjoint literal arms 2, 3, 0, 1
    -- and the panicking `_ => unreachable!()` default, written as an if-chain
    let p' ←
      if p.mode = 2 then
        if clk ≥ 80 then some { p with mode_clock := 0, mode := 3 }
        else some { p with mode_clock := clk }
      else if p.mode = 3 then
        if clk ≥ 172 then
          Ppu.render_scanline { p with mode_clock := 0, mode := 0 }
        else some { p with mode_clock := clk }
      else if p.mode = 0 then
        if clk ≥ 204 then
          if p.line + 1 ≥ 256 then none
          else if p.line + 1 = 144 then
            some { p with mode_clock := 0, line := p.line + 1, mode := 1,
                          vblank_interrupt := true }
          else some { p with mode_clock := 0, line := p.line + 1, mode := 2 }
        else some { p with mode_clock := clk }
      else if p.mode = 1 then
        if clk ≥ 456 then
          if p.line + 1 ≥ 256 then none
          else if p.line + 1 > 153 then
            some { p with mode_clock := 0, mode := 2, line := 0 }
          else some { p with mode_clock := 0, line := p.line + 1 }
        else some { p with mode_clock := clk }
      else none
    some { p' with stat := (p'.stat &&& 0xF8) ||| (p'.mode &&& 0x3) }

/-- Address bus state, from `pub struct Memory` in src/memory/mod.rs. -/
structure Memory where
  rom : List Nat
  wram : Nat → Nat
  io : Nat → Nat
  hram : Nat → Nat
  ie : Nat
  if_ : Nat
  ppu : Ppu

/-- `Memory::read`.  `self.rom[addr as usize]` panics (`none`) when the ROM is
shorter than `addr + 1`; every other matched region is a fixed-size array
indexed in bounds.  The unmatched default arm logs and returns 0. -/
def Memory.read (m : Memory) (addr : Nat) : Option Nat :=
  if addr ≤ 0x7FFF then m.rom.get? addr
  else if 0x8000 ≤ addr ∧ addr ≤ 0x9FFF then some (m.ppu.vram (addr - 0x8000))
  else if 0xC000 ≤ addr ∧ addr ≤ 0xDFFF then some (m.wram (addr - 0xC000))
  else if 0xFE00 ≤ addr ∧ addr ≤ 0xFE9F then some (m.ppu.oam (addr - 0xFE00))
  else if 0xFF00 ≤ addr ∧ addr ≤ 0xFF7F then
    if addr = 0xFF0F then some m.if_
    else if addr = 0xFF40 then some m.ppu.lcdc
    else if addr = 0xFF41 then some m.ppu.stat
    else if addr = 0xFF42 then some m.ppu.scy
    else if addr = 0xFF43 then some m.ppu.scx
    else if addr = 0xFF44 then some m.ppu.line
    else if addr = 0xFF47 then some m.ppu.bgp
    else if addr = 0xFF48 then some m.ppu.obp0
    else if addr = 0xFF49 then some m.ppu.obp1
    else if addr = 0xFF4A then some m.ppu.wy
    else if addr = 0xFF4B then some m.ppu.wx
    else some (m.io (addr - 0xFF00))
  else if 0xFF80 ≤ addr ∧ addr ≤ 0xFFFE then some (m.hram (addr - 0xFF80))
  else if addr = 0xFFFF then some m.ie
  else some 0

/-- `Memory::write`.  ROM addresses and unmatched addresses hit no arm: the
write is discarded (the state is returned unchanged). -/
def Memory.write (m : Memory) (addr v : Nat) : Memory :=
  if 0x8000 ≤ addr ∧ addr ≤ 0x9FFF then
    { m with ppu := { m.ppu with vram := fupd m.ppu.vram (addr - 0x8000) v } }
  else if 0xC000 ≤ addr ∧ addr ≤ 0xDFFF then
    { m with wram := fupd m.wram (addr - 0xC000) v }
  else if 0xFE00 ≤ addr ∧ addr ≤ 0xFE9F then
    { m with ppu := { m.ppu with oam := fupd m.ppu.oam (addr - 0xFE00) v } }
  else if 0xFF00 ≤ addr ∧ addr ≤ 0xFF7F then
    if addr = 0xFF0F then { m with if_ := v }
    else if addr = 0xFF40 then { m with ppu := { m.ppu with lcdc := v } }
    else if addr = 0xFF41 then { m with ppu := { m.ppu with stat := v } }
    else if addr = 0xFF42 then { m with ppu := { m.ppu with scy := v } }
    else if addr = 0xFF43 then { m with ppu := { m.ppu with scx := v } }
    else if addr = 0xFF47 then { m with ppu := { m.ppu with bgp := v } }
    else if addr = 0xFF48 then { m with ppu := { m.ppu with obp0 := v } }
    else if addr = 0xFF49 then { m with ppu := { m.ppu with obp1 := v } }
    else if addr = 0xFF4A then { m with ppu := { m.ppu with wy := v } }
    else if addr = 0xFF4B then { m with ppu := { m.ppu with wx := v } }
    else { m with io := fupd m.io (addr - 0xFF00) v }
  else if 0xFF80 ≤ addr ∧ addr ≤ 0xFFFE then
    { m with hram := fupd m.hram (addr - 0xFF80) v }
  else if addr = 0xFFFF then { m with ie := v }
  else m

/-- `Memory::step_ppu`: advance the PPU and fold a raised VBlank interrupt into
the interrupt-flag register. -/
def Memory.step_ppu (m : Memory) (cycles : Nat) : Option Memory := do
  let p ← m.ppu.step cycles
  if p.vblank_interrupt then
    some { m with ppu := { p with vblank_interrupt := false }, if_ := m.if_ ||| 0x01 }
  else
    some { m with ppu := p }

/-- `Memory::new`.  The constructor is total: it performs no validation of the
ROM image.  The register writes go through `Memory::write`; the VRAM test
patterns, tile map and Nintendo-logo copy assign `memory.ppu.vram` directly.
`rom_data[logo_start + i]` is guarded by `logo_start + i < rom_data.len()`,
so the `List.getD` default is never exposed. -/
def Memory.new (rom_data : List Nat) : Memory :=
  let m : Memory :=
    { rom := rom_data, wram := fun _ => 0, io := fun _ => 0, hram := fun _ => 0,
      ie := 0, if_ := 0, ppu := Ppu.new }
  let m := m.write 0xFF40 0x91
  let m := m.write 0xFF41 0x85
  let m := m.write 0xFF42 0x00
  let m := m.write 0xFF43 0x00
  let m := m.write 0xFF45 0x00
  let m := m.write 0xFF47 0xFC
  let m := m.write 0xFF48 0xFF
  let m := m.write 0xFF49 0xFF
  let m := m.write 0xFF4A 0x00
  let m := m.write 0xFF4B 0x00
  let m := m.write 0xFF0F 0xE1
  let m := m.write 0xFFFF 0x01
  let v := m.ppu.vram
  let v := (List.range 16).foldl (fun v i => fupd v i 0xFF) v
  let v := (List.range 8).foldl
    (fun v i =>
      let pattern := if i % 2 = 0 then 0xAA else 0x55
      fupd (fupd v (16 + i * 2) pattern) (16 + i * 2 + 1) pattern) v
  let v := (List.range 8).foldl
    (fun v i =>
      if i = 0 ∨ i = 7 then fupd (fupd v (32 + i * 2) 0xFF) (32 + i * 2 + 1) 0xFF
      else fupd (fupd v (32 + i * 2) 0x81) (32 + i * 2 + 1) 0x81) v
  let v := (List.range 8).foldl
    (fun v i => fupd (fupd v (48 + i * 2) (1 <<< i)) (48 + i * 2 + 1) (1 <<< i)) v
  let v := (List.range 32).foldl
    (fun v y => (List.range 32).foldl
      (fun v x => fupd v (0x1800 + y * 32 + x) ((x + y) % 4)) v) v
  let v :=
    if rom_data.length ≥ 0x134 then
      let v := (List.range 48).foldl
        (fun v i =>
          if 0x104 + i < rom_data.length then fupd v (0x100 + i) (rom_data.getD (0x104 + i) 0)
          else v) v
      (List.range 12).foldl (fun v i => fupd v (0x1800 + 32 * 5 + 10 + i) (0x10 + i)) v
    else v
  { m with ppu := { m.ppu with vram := v } }

/-- CPU register file, from `pub struct Cpu` in src/cpu/mod.rs. -/
structure Cpu where
  pc : Nat
  sp : Nat
  a : Nat
  b : Nat
  c : Nat
  d : Nat
  e : Nat
  h : Nat
  l : Nat
  f : Nat
  total_cycles : Nat
  ime : Bool

/-- `Cpu::new`: documented post-bootrom register values. -/
def Cpu.new : Cpu where
  pc := 0x100
  sp := 0xFFFE
  a := 0x01
  f := 0xB0
  b := 0x00
  c := 0x13
  d := 0x00
  e := 0xD8
  h := 0x01
  l := 0x4D
  total_cycles := 0
  ime := false

/-- The five memory loads performed by the `peek_next_opcodes(memory, 5)`
let-binding at the top of `Cpu::step` (addresses advance with `wrapping_add`);
they are executed unconditionally and can panic on an out-of-range ROM read. -/
def Cpu.peekReads (s : Cpu) (m : Memory) : Option Unit := do
  let _ ← m.read s.pc
  let _ ← m.read ((s.pc + 1) % 65536)
  let _ ← m.read ((s.pc + 2) % 65536)
  let _ ← m.read ((s.pc + 3) % 65536)
  let _ ← m.read ((s.pc + 4) % 65536)
  some ()

/-- The interrupt-flag synchronization before the fetch:
`if memory.if_ & memory.ie != 0 { self.ime = true; }`. -/
def Cpu.syncIme (s : Cpu) (m : Memory) : Cpu :=
  if m.if_ &&& m.ie ≠ 0 then { s with ime := true } else s

/-- The auto-enable heuristic after the opcode match:
`if self.total_cycles > 100000 && !self.ime { self.ime = true; }`. -/
def Cpu.autoIme (s : Cpu) : Cpu :=
  if s.total_cycles > 100000 ∧ s.ime = false then { s with ime := true } else s

/-- The relative-jump target `(self.pc as i16 + offset as i16 + 2) as u16`,
with both `i16` additions checked. -/
def jrTarget (pc off : Nat) : Option Nat := do
  let t1 ← chkI16 (toI16 pc + toI8 off)
  let t2 ← chkI16 (t1 + 2)
  some (i16ToU16 t2)

/-- `Cpu::handle_cb_opcode`: only `RES 0,A` (0x87) is implemented; unknown
escaped opcodes log and fall through.  Both paths cost 8 and do `self.pc += 2`. -/
def Cpu.handleCb (s : Cpu) (m : Memory) : Option (Nat × Cpu × Memory) := do
  let a1 ← chk16 (s.pc + 1)
  let cb ← m.read a1
  let s := if cb = 0x87 then { s with a := s.a &&& 0xFE } else s
  let pc' ← chk16 (s.pc + 2)
  some (8, { s with pc := pc' }, m)

/-- The decode-and-execute match of `Cpu::step`: given the fetched opcode,
returns the cycle cost and the updated CPU and bus states, or `none` where the
source panics (checked `u16` overflow on PC/SP expressions, or an out-of-range
ROM read). -/
def Cpu.exec (s : Cpu) (m : Memory) (opcode : Nat) : Option (Nat × Cpu × Memory) :=
  match opcode with
  | 0x00 => do -- NOP
    let pc' ← chk16 (s.pc + 1)
    some (4, { s with pc := pc' }, m)
  | 0xcd => do -- CALL nn
    let a1 ← chk16 (s.pc + 1)
    let low ← m.read a1
    let a2 ← chk16 (s.pc + 2)
    let high ← m.read a2
    let address := (high <<< 8) ||| low
    let ret ← chk16 (s.pc + 3)
    let sp1 := wsub16 s.sp 1
    let m := m.write sp1 (ret &&& 0xFF)
    let sp2 := wsub16 sp1 1
    let m := m.write sp2 ((ret >>> 8) &&& 0xFF)
    some (24, { s with sp := sp2, pc := address }, m)
  | 0x61 => do -- LD H,C
    let pc' ← chk16 (s.pc + 1)
    some (4, { s with h := s.c, pc := pc' }, m)
  | 0x21 => do -- LD HL,nn
    let a1 ← chk16 (s.pc + 1)
    let low ← m.read a1
    let a2 ← chk16 (s.pc + 2)
    let high ← m.read a2
    let pc' ← chk16 (s.pc + 3)
    some (12, { s with l := low, h := high, pc := pc' }, m)
  | 0xc3 => do -- JP nn
    let a1 ← chk16 (s.pc + 1)
    let low ← m.read a1
    let a2 ← chk16 (s.pc + 2)
    let high ← m.read a2
    some (16, { s with pc := (high <<< 8) ||| low }, m)
  | 0x31 => do -- LD SP, nn
    let a1 ← chk16 (s.pc + 1)
    let low ← m.read a1
    let a2 ← chk16 (s.pc + 2)
    let high ← m.read a2
    let pc' ← chk16 (s.pc + 3)
    some (12, { s with sp := (high <<< 8) ||| low, pc := pc' }, m)
  | 0x3e => do -- LD A, n
    let a1 ← chk16 (s.pc + 1)
    let value ← m.read a1
    let pc' ← chk16 (s.pc + 2)
    some (8, { s with a := value, pc := pc' }, m)
  | 0xfe => do -- CP n
    let a1 ← chk16 (s.pc + 1)
    let value ← m.read a1
    let pc' ← chk16 (s.pc + 2)
    some (8, { s with f := if s.a = value then 0x80 else 0, pc := pc' }, m)
  | 0x28 => do -- JR Z, n
    let a1 ← chk16 (s.pc + 1)
    let offset ← m.read a1
    if s.f &&& 0x80 ≠ 0 then do
      let pc' ← jrTarget s.pc offset
      some (12, { s with pc := pc' }, m)
    else do
      let pc' ← chk16 (s.pc + 2)
      some (8, { s with pc := pc' }, m)
  | 0x03 => do -- INC BC
    let bc := (s.b <<< 8) ||| s.c
    let new_bc := (bc + 1) % 65536
    let pc' ← chk16 (s.pc + 1)
    some (8, { s with b := new_bc >>> 8, c := new_bc &&& 0xFF, pc := pc' }, m)
  | 0xaf => do -- XOR A
    let pc' ← chk16 (s.pc + 1)
    some (4, { s with a := 0, f := 0x80, pc := pc' }, m)
  | 0x18 => do -- JR n
    let a1 ← chk16 (s.pc + 1)
    let offset ← m.read a1
    let pc' ← jrTarget s.pc offset
    some (12, { s with pc := pc' }, m)
  | 0xea => do -- LD (nn), A
    let a1 ← chk16 (s.pc + 1)
    let low ← m.read a1
    let a2 ← chk16 (s.pc + 2)
    let high ← m.read a2
    let m := m.write ((high <<< 8) ||| low) s.a
    let pc' ← chk16 (s.pc + 3)
    some (16, { s with pc := pc' }, m)
  | 0xf3 => do -- DI
    let pc' ← chk16 (s.pc + 1)
    some (4, { s with ime := false, pc := pc' }, m)
  | 0xe0 => do -- LDH (n), A
    let a1 ← chk16 (s.pc + 1)
    let offset ← m.read a1
    let m := m.write (0xFF00 + offset) s.a
    let pc' ← chk16 (s.pc + 2)
    some (12, { s with pc := pc' }, m)
  | 0xff => -- RST 38
    some (16, { s with pc := 0x0038 }, m)
  | 0xc0 => -- RET NZ
    if s.f &&& 0x80 = 0 then do
      let low ← m.read s.sp
      let a1 ← chk16 (s.sp + 1)
      let high ← m.read a1
      some (20, { s with pc := (high <<< 8) ||| low, sp := wadd16 s.sp 2 }, m)
    else do
      let pc' ← chk16 (s.pc + 1)
      some (8, { s with pc := pc' }, m)
  | 0x01 => do -- LD BC,nn
    let a1 ← chk16 (s.pc + 1)
    let low ← m.read a1
    let a2 ← chk16 (s.pc + 2)
    let high ← m.read a2
    let pc' ← chk16 (s.pc + 3)
    some (12, { s with c := low, b := high, pc := pc' }, m)
  | 0xf0 => do -- LDH A,(n)
    let a1 ← chk16 (s.pc + 1)
    let offset ← m.read a1
    let value ← m.read (0xFF00 + offset)
    let pc' ← chk16 (s.pc + 2)
    some (12, { s with a := value, pc := pc' }, m)
  | 0x47 => do -- LD B,A
    let pc' ← chk16 (s.pc + 1)
    some (4, { s with b := s.a, pc := pc' }, m)
  | 0xcb => s.handleCb m
  | 0x20 => do -- JR NZ,n
    let a1 ← chk16 (s.pc + 1)
    let offset ← m.read a1
    if s.f &&& 0x80 = 0 then do
      let pc' ← jrTarget s.pc offset
      some (12, { s with pc := pc' }, m)
    else do
      let pc' ← chk16 (s.pc + 2)
      some (8, { s with pc := pc' }, m)
  | 0xfa => do -- LD A,(nn)
    let a1 ← chk16 (s.pc + 1)
    let low ← m.read a1
    let a2 ← chk16 (s.pc + 2)
    let high ← m.read a2
    let value ← m.read ((high <<< 8) ||| low)
    let pc' ← chk16 (s.pc + 3)
    some (16, { s with a := value, pc := pc' }, m)
  | 0x7f => do -- LD A,A
    let pc' ← chk16 (s.pc + 1)
    some (4, { s with pc := pc' }, m)
  | 0x78 => do -- LD A,B
    let pc' ← chk16 (s.pc + 1)
    some (4, { s with a := s.b, pc := pc' }, m)
  | 0xc9 => do -- RET
    let low ← m.read s.sp
    let a1 ← chk16 (s.sp + 1)
    let high ← m.read a1
    some (16, { s with pc := (high <<< 8) ||| low, sp := wadd16 s.sp 2 }, m)
  | _ => do -- unknown opcode: log, skip one byte, cost 4
    let pc' ← chk16 (s.pc + 1)
    some (4, { s with pc := pc' }, m)

/-- `Cpu::step`.  Order of effects, as in the source: the stall-recovery
watchdog (early return, skipping everything else including the cycle
accounting), interrupt-flag synchronization, fetch, the `peek_next_opcodes`
loads, decode/execute, the auto-enable heuristic, `total_cycles += cycles`
(checked `u64` add), and `memory.step_ppu(cycles)`. -/
def Cpu.step (s : Cpu) (m : Memory) : Option (Nat × Cpu × Memory) :=
  if s.pc = 0x0038 ∨ s.total_cycles > 50000 then
    let s := { s with pc := 0x0100, ime := true }
    let m := { m with if_ := 0xFF, ie := 0xFF }
    let m := m.write 0xFF40 0x91
    let m := m.write 0xFF47 0xFC
    some (20, s, m)
  else do
    let s := s.syncIme m
    let opcode ← m.read s.pc
    let _ ← s.peekReads m
    let (cycles, s, m) ← s.exec m opcode
    let s := s.autoIme
    if s.total_cycles + cycles ≥ 18446744073709551616 then none
    else
      let s := { s with total_cycles := s.total_cycles + cycles }
      let m ← m.step_ppu cycles
      some (cycles, s, m)

/-! ### Concrete fixtures used by witnesses and counterexamples -/

/-- A bus over a given ROM image with zeroed RAM and a fresh PPU, as used to
drive `Cpu::step` in isolation. -/
def busWith (rom : List Nat) : Memory :=
  { rom := rom, wram := fun _ => 0, io := fun _ => 0, hram := fun _ => 0,
    ie := 0, if_ := 0, ppu := Ppu.new }

/-- An all-zero (NOP-filled) ROM image of header size. -/
def romZ : List Nat := List.replicate 0x150 0

/-! ### Shared read/write round-trip lemmas -/

lemma read_write_vram (m : Memory) (addr v : Nat) (h1 : 0x8000 ≤ addr) (h2 : addr ≤ 0x9FFF) :
    (m.write addr v).read addr = some v := by
  have hrom : ¬ addr ≤ 0x7FFF := by omega
  simp [Memory.write, Memory.read, fupd, h1, h2, hrom]

lemma read_write_wram (m : Memory) (addr v : Nat) (h1 : 0xC000 ≤ addr) (h2 : addr ≤ 0xDFFF) :
    (m.write addr v).read addr = some v := by
  have hrom : ¬ addr ≤ 0x7FFF := by omega
  have hv : ¬ (0x8000 ≤ addr ∧ addr ≤ 0x9FFF) := by omega
  simp [Memory.write, Memory.read, fupd, h1, h2, hrom, hv]

lemma read_write_oam (m : Memory) (addr v : Nat) (h1 : 0xFE00 ≤ addr) (h2 : addr ≤ 0xFE9F) :
    (m.write addr v).read addr = some v := by
  have hrom : ¬ addr ≤ 0x7FFF := by omega
  have hv : ¬ (0x8000 ≤ addr ∧ addr ≤ 0x9FFF) := by omega
  have hw : ¬ (0xC000 ≤ addr ∧ addr ≤ 0xDFFF) := by omega
  simp [Memory.write, Memory.read, fupd, h1, h2, hrom, hv, hw]

lemma read_write_hram (m : Memory) (addr v : Nat) (h1 : 0xFF80 ≤ addr) (h2 : addr ≤ 0xFFFE) :
    (m.write addr v).read addr = some v := by
  have hrom : ¬ addr ≤ 0x7FFF := by omega
  have hv : ¬ (0x8000 ≤ addr ∧ addr ≤ 0x9FFF) := by omega
  have hw : ¬ (0xC000 ≤ addr ∧ addr ≤ 0xDFFF) := by omega
  have ho : ¬ (0xFE00 ≤ addr ∧ addr ≤ 0xFE9F) := by omega
  have hio : ¬ (0xFF00 ≤ addr ∧ addr ≤ 0xFF7F) := by omega
  simp [Memory.write, Memory.read, fupd, h1, h2, hrom, hv, hw, ho, hio]

/-! ### C5 -/

/-- C5: for every address in video RAM (0x8000-0x9FFF), work RAM
(0xC000-0xDFFF), object-attribute memory (0xFE00-0xFE9F) or high RAM
(0xFF80-0xFFFE) and every byte value `v`, `write(addr, v)` followed by
`read(addr)` returns `v`. -/
theorem C5_ram_roundtrip (m : Memory) (addr v : Nat) (hv : v < 256)
    (h : 0x8000 ≤ addr ∧ addr ≤ 0x9FFF ∨ 0xC000 ≤ addr ∧ addr ≤ 0xDFFF ∨
         0xFE00 ≤ addr ∧ addr ≤ 0xFE9F ∨ 0xFF80 ≤ addr ∧ addr ≤ 0xFFFE) :
    (m.write addr v).read addr = some v := by
  rcases h with ⟨h1, h2⟩ | ⟨h1, h2⟩ | ⟨h1, h2⟩ | ⟨h1, h2⟩
  · exact read_write_vram m addr v h1 h2
  · exact read_write_wram m addr v h1 h2
  · exact read_write_oam m addr v h1 h2
  · exact read_write_hram m addr v h1 h2

/-- Witness for C5 at a concrete bus, address and value. -/
theorem C5_ram_roundtrip_witness :
    (0x42 : Nat) < 256 ∧ ((busWith romZ).write 0xFE10 0x42).read 0xFE10 = some 0x42 :=
  ⟨by decide, C5_ram_roundtrip (busWith romZ) 0xFE10 0x42 (by decide)
    (Or.inr (Or.inr (Or.inl (by decide))))⟩

/-! ### C8 -/

/-- C8: writes to ROM (0x0000-0x7FFF) and to any address outside all mapped
regions (0xA000-0xBFFF, 0xE000-0xFDFF, 0xFEA0-0xFEFF) leave the entire bus and
rendering state unchanged, and reads of the unmapped addresses return 0;
neither operation can panic. -/
theorem C8_rom_and_unmapped (m : Memory) (addr v : Nat)
    (h : addr ≤ 0x7FFF ∨ 0xA000 ≤ addr ∧ addr ≤ 0xBFFF ∨
         0xE000 ≤ addr ∧ addr ≤ 0xFDFF ∨ 0xFEA0 ≤ addr ∧ addr ≤ 0xFEFF) :
    m.write addr v = m ∧ (¬ addr ≤ 0x7FFF → m.read addr = some 0) := by
  have h1 : ¬ (0x8000 ≤ addr ∧ addr ≤ 0x9FFF) := by omega
  have h2 : ¬ (0xC000 ≤ addr ∧ addr ≤ 0xDFFF) := by omega
  have h3 : ¬ (0xFE00 ≤ addr ∧ addr ≤ 0xFE9F) := by omega
  have h4 : ¬ (0xFF00 ≤ addr ∧ addr ≤ 0xFF7F) := by omega
  have h5 : ¬ (0xFF80 ≤ addr ∧ addr ≤ 0xFFFE) := by omega
  have h6 : addr ≠ 0xFFFF := by omega
  constructor
  · simp [Memory.write, h1, h2, h3, h4, h5, h6]
  · intro hrom
    simp [Memory.read, hrom, h1, h2, h3, h4, h5, h6]

/-- Witness for C8: a write to unmapped 0xA000 is discarded and its read
returns 0. -/
theorem C8_rom_and_unmapped_witness :
    (busWith romZ).write 0xA000 7 = busWith romZ ∧
      (busWith romZ).read 0xA000 = some 0 :=
  ⟨(C8_rom_and_unmapped (busWith romZ) 0xA000 7 (Or.inr (Or.inl (by decide)))).1,
   (C8_rom_and_unmapped (busWith romZ) 0xA000 7 (Or.inr (Or.inl (by decide)))).2 (by decide)⟩

/-! ### C3 -/

/-- C3: when a `step` call starts with PC = 0x0038 or more than 50000 total
cycles, the watchdog fires: the call returns 20 without fetching or decoding
any opcode, and afterwards PC = 0x0100, IME = true, the interrupt-flag and
interrupt-enable registers are 0xFF, the LCD-control register is 0x91 and the
background palette register is 0xFC.  The result state is written out in full,
so no fetch or decode can have contributed to it. -/
theorem C3_watchdog (s : Cpu) (m : Memory) (h : s.pc = 0x0038 ∨ s.total_cycles > 50000) :
    Cpu.step s m = some (20, { s with pc := 0x0100, ime := true },
      { m with if_ := 0xFF, ie := 0xFF,
               ppu := { m.ppu with lcdc := 0x91, bgp := 0xFC } }) := by
  simp only [Cpu.step, if_pos h]
  rfl

/-- Witness for C3 at PC = 0x0038 on a concrete bus. -/
theorem C3_watchdog_witness :
    Cpu.step { Cpu.new with pc := 0x0038 } (busWith romZ) =
      some (20, { (Cpu.new : Cpu) with pc := 0x0100, ime := true },
        { (busWith romZ) with
            if_ := 0xFF, ie := 0xFF,
            ppu := { (busWith romZ).ppu with lcdc := 0x91, bgp := 0xFC } }) :=
  C3_watchdog _ _ (Or.inl rfl)

/-! ### C4 -/

/-- ROM image with RET (0xC9) at the entry point 0x0100. -/
def c4Rom : List Nat := (List.range 0x150).map fun i => if i = 0x100 then 0xC9 else 0

/-- C4 (failing input): executing RET with SP = 0xFFFF panics instead of
wrapping — `memory.read(self.sp + 1)` computes `0xFFFF + 1` with a plain
checked `u16` add, so `step` aborts (`none`), contradicting the invariant that
PC/SP arithmetic always wraps modulo 65536 and never overflow-panics. -/
theorem C4_ret_sp_overflow_panics :
    Cpu.step { Cpu.new with sp := 0xFFFF } (busWith c4Rom) = none := rfl

/-! ### C6 -/

/-- A 0x100-byte ROM image: shorter than the 0x150-byte header size. -/
def shortRom : List Nat := List.replicate 0x100 0

/-- C6 (counterexample): constructing the bus from a ROM image shorter than
0x150 bytes does not fail — `Memory::new` returns `Self` with no failure
channel and performs no length check, and the resulting bus is fully
functional (a work-RAM write/read round-trips), contrary to the claim that
construction is aborted and reported to the caller. -/
theorem C6_short_rom_working_bus_cex :
    shortRom.length < 0x150 ∧
      ((Memory.new shortRom).write 0xC000 0xAB).read 0xC000 = some 0xAB :=
  ⟨by decide, rfl⟩

/-- C6 (amended): `Memory::new` performs no ROM-size validation; construction
from any undersized image succeeds and yields a working bus. -/
theorem C6_new_unvalidated (rom : List Nat) (addr v : Nat) (hlen : rom.length < 0x150)
    (h1 : 0xC000 ≤ addr) (h2 : addr ≤ 0xDFFF) :
    ((Memory.new rom).write addr v).read addr = some v :=
  read_write_wram _ _ _ h1 h2

/-- Witness for the amended C6 on a concrete undersized image. -/
theorem C6_new_unvalidated_witness :
    shortRom.length < 0x150 ∧
      ((Memory.new shortRom).write 0xC123 9).read 0xC123 = some 9 :=
  ⟨by decide, C6_new_unvalidated shortRom 0xC123 9 (by decide) (by decide) (by decide)⟩

/-! ### C7 -/

/-- The sprite-priority scenario of the spec: display and sprites enabled
(LCDC = 0x82, background/window off to isolate the sprite layer), scanline 4,
two 8x8 sprites using tile 1, one at screen X = 0 (OAM x byte 8) and one at
screen X = 5 (OAM x byte 13), both with rows covering scanline 4 (OAM y byte
16), no attribute bits set, object palette 0 = 0xE4.  Tile 1 has bitplane
bytes 0xFF/0x00, i.e. color index 1 (non-transparent) at every pixel. -/
def c7Ppu : Ppu :=
  { Ppu.new with
    lcdc := 0x82
    line := 4
    obp0 := 0xE4
    vram := fun i => if 16 ≤ i ∧ i < 32 then (if i % 2 = 0 then 0xFF else 0) else 0
    oam := fun i =>
      if i = 0 then 16 else if i = 1 then 8 else if i = 2 then 1 else
      if i = 4 then 16 else if i = 5 then 13 else if i = 6 then 1 else 0 }

/-- C7: after rendering the scanline, the frame-buffer pixel at (4,4) holds
the X = 0 sprite's color — color index 1 mapped through object palette 0
(`(0xE4 >> 2) & 3 = 1`).  The sprites are stable-sorted ascending by X and
drawn from highest to lowest X, so the X = 0 sprite is painted last. -/
theorem C7_sprite_priority :
    (Ppu.render_scanline c7Ppu).map (fun q => q.frame_buffer (4 * 160 + 4)) =
      some ((0xE4 >>> (1 * 2)) &&& 0x03) := rfl

/-! ### C10 -/

/-- ROM with `CALL 0x0110` at the entry point and `RET` at 0x0110. -/
def c10Rom : List Nat :=
  (List.range 0x150).map fun i =>
    if i = 0x100 then 0xCD else if i = 0x101 then 0x10 else
    if i = 0x102 then 0x01 else if i = 0x110 then 0xC9 else 0

/-- CPU whose stack pointer points into work RAM. -/
def c10Cpu : Cpu := { Cpu.new with sp := 0xD000 }

/-- C10 (failing input): CALL at p = 0x0100 pushes the return address p + 3 =
0x0103 with its low byte at SP-1 and its high byte at SP-2, but RET reads the
byte at SP as the low byte, so after CALL-then-RET the program counter is the
byte-swapped 0x0301, not 0x0103 — the call/return round-trip is broken. -/
theorem C10_call_ret_byteswap :
    ((Cpu.step c10Cpu (busWith c10Rom)).bind fun r => Cpu.step r.2.1 r.2.2).map
        (fun r => r.2.1.pc) = some 0x0301 ∧ (0x0301 : Nat) ≠ 0x0103 :=
  ⟨rfl, by decide⟩

/-! ### Projection lemmas for the small CPU sub-steps -/

@[simp] lemma syncIme_pc (s : Cpu) (m : Memory) : (s.syncIme m).pc = s.pc := by
  unfold Cpu.syncIme; split <;> rfl

@[simp] lemma syncIme_a (s : Cpu) (m : Memory) : (s.syncIme m).a = s.a := by
  unfold Cpu.syncIme; split <;> rfl

@[simp] lemma syncIme_f (s : Cpu) (m : Memory) : (s.syncIme m).f = s.f := by
  unfold Cpu.syncIme; split <;> rfl

@[simp] lemma syncIme_sp (s : Cpu) (m : Memory) : (s.syncIme m).sp = s.sp := by
  unfold Cpu.syncIme; split <;> rfl

@[simp] lemma syncIme_total (s : Cpu) (m : Memory) :
    (s.syncIme m).total_cycles = s.total_cycles := by
  unfold Cpu.syncIme; split <;> rfl

lemma autoIme_eq (s : Cpu) (h : s.total_cycles ≤ 100000) : s.autoIme = s := by
  unfold Cpu.autoIme
  rw [if_neg]
  rintro ⟨h1, _⟩
  omega

/-! ### Success lemmas for the PPU advance -/

/-- `render_scanline` succeeds on lines below 144 and only rewrites the frame
buffer. -/
lemma render_scanline_frame (p : Ppu) (h : p.line < 144) :
    ∃ fb, p.render_scanline = some { p with frame_buffer := fb } := by
  have hguard : ¬ (p.line * 160 + 160 > 23040) := by omega
  simp only [Ppu.render_scanline, hguard]
  by_cases hl : p.lcdc &&& 0x80 = 0
  · simp only [if_pos hl, if_neg hguard]
    exact ⟨_, rfl⟩
  · simp only [if_neg hl, if_neg hguard]
    exact ⟨_, rfl⟩

/-- `Ppu::step` succeeds whenever the mode is one of the four legal values,
the line is below 144 and the clock addition stays within `u32`. -/
lemma ppu_step_isSome (p : Ppu) (c : Nat) (hmode : p.mode < 4) (hline : p.line < 144)
    (hclock : p.mode_clock + c < 4294967296) : ∃ p', Ppu.step c p = some p' := by
  have hg : ¬ (p.mode_clock + c ≥ 4294967296) := by omega
  simp only [Ppu.step, hg]
  have h4 : p.mode = 0 ∨ p.mode = 1 ∨ p.mode = 2 ∨ p.mode = 3 := by omega
  rcases h4 with hm | hm | hm | hm <;> simp only [hm]
  · by_cases hth : p.mode_clock + c ≥ 204
    · simp only [if_pos hth, if_neg (show ¬ (p.line + 1 ≥ 256) by omega)]
      by_cases h144 : p.line + 1 = 144
      · simp only [if_pos h144, Option.bind_eq_bind, Option.some_bind]
        exact ⟨_, rfl⟩
      · simp only [if_neg h144, Option.bind_eq_bind, Option.some_bind]
        exact ⟨_, rfl⟩
    · simp only [if_neg hth, Option.bind_eq_bind, Option.some_bind]
      exact ⟨_, rfl⟩
  · by_cases hth : p.mode_clock + c ≥ 456
    · simp only [if_pos hth, if_neg (show ¬ (p.line + 1 ≥ 256) by omega)]
      by_cases h153 : p.line + 1 > 153
      · simp only [if_pos h153, Option.bind_eq_bind, Option.some_bind]
        exact ⟨_, rfl⟩
      · simp only [if_neg h153, Option.bind_eq_bind, Option.some_bind]
        exact ⟨_, rfl⟩
    · simp only [if_neg hth, Option.bind_eq_bind, Option.some_bind]
      exact ⟨_, rfl⟩
  · by_cases hth : p.mode_clock + c ≥ 80
    · simp only [if_pos hth, Option.bind_eq_bind, Option.some_bind]
      exact ⟨_, rfl⟩
    · simp only [if_neg hth, Option.bind_eq_bind, Option.some_bind]
      exact ⟨_, rfl⟩
  · by_cases hth : p.mode_clock + c ≥ 172
    · simp only [if_pos hth]
      obtain ⟨fb, hr⟩ := render_scanline_frame { p with mode_clock := 0, mode := 0 } hline
      rw [hr]
      simp only [Option.bind_eq_bind, Option.some_bind]
      exact ⟨_, rfl⟩
    · simp only [if_neg hth, Option.bind_eq_bind, Option.some_bind]
      exact ⟨_, rfl⟩

/-- `Memory::step_ppu` succeeds under the same conditions. -/
lemma step_ppu_isSome (m : Memory) (c : Nat) (hmode : m.ppu.mode < 4)
    (hline : m.ppu.line < 144) (hclock : m.ppu.mode_clock + c < 4294967296) :
    ∃ m', m.step_ppu c = some m' := by
  obtain ⟨p', hp⟩ := ppu_step_isSome m.ppu c hmode hline hclock
  unfold Memory.step_ppu
  rw [hp]
  simp only [Option.bind_eq_bind, Option.some_bind]
  split
  · exact ⟨_, rfl⟩
  · exact ⟨_, rfl⟩

/-! ### The non-watchdog pipeline of `Cpu::step` -/

/-- The accounting tail of a non-watchdog `Cpu::step`: once the fetch, the
peek loads and the decode/execute stage have produced `(c, s₁, m₁)`, the call
adds `c` to the total-cycle counter and forwards `c` to `Memory::step_ppu`. -/
lemma step_pipeline (s : Cpu) (m : Memory) (op c : Nat) (s₁ : Cpu) (m₁ : Memory)
    (hw : ¬ (s.pc = 0x0038 ∨ s.total_cycles > 50000))
    (hop : m.read (s.syncIme m).pc = some op)
    (hpeek : (s.syncIme m).peekReads m = some ())
    (hexec : (s.syncIme m).exec m op = some (c, s₁, m₁))
    (hfit : s₁.autoIme.total_cycles + c < 18446744073709551616) :
    Cpu.step s m = (m₁.step_ppu c).map
      (fun m₂ => (c, { s₁.autoIme with
                        total_cycles := s₁.autoIme.total_cycles + c }, m₂)) := by
  simp only [Cpu.step, if_neg hw, hop, hpeek, hexec, Option.bind_eq_bind, Option.some_bind]
  rw [if_neg (by omega)]
  cases hm : m₁.step_ppu c <;> simp [hm]

/-! ### C1 -/

/-- C1 (counterexample): on the watchdog path the call returns 20, but the
total-cycle counter and the PPU mode clock are both left unchanged (still 0
here) — the early `return 20` skips the cycle accounting and the
rendering-advance forwarding, so the rendering clock does not advance by the
returned count on that call. -/
theorem C1_watchdog_no_accounting_cex :
    (Cpu.step { Cpu.new with pc := 0x0038 } (busWith romZ)).map
        (fun r => (r.1, r.2.1.total_cycles, r.2.2.ppu.mode_clock)) = some (20, 0, 0) ∧
      (0 : Nat) ≠ 0 + 20 :=
  ⟨rfl, by decide⟩

/-- C1 (amended): on every non-watchdog `step` call that executes an
instruction producing cycle count `c` and post-execute state `(s₁, m₁)`, the
call adds `c` to the total-cycle counter and forwards `c` to the bus's
rendering-advance entry point: the final memory is `m₁.step_ppu c` and the
final counter is the post-execute counter plus `c`.  (The watchdog path skips
both, see the counterexample.) -/
theorem C1_cycle_accounting (s : Cpu) (m : Memory) (op c : Nat) (s₁ : Cpu) (m₁ : Memory)
    (hw : ¬ (s.pc = 0x0038 ∨ s.total_cycles > 50000))
    (hop : m.read (s.syncIme m).pc = some op)
    (hpeek : (s.syncIme m).peekReads m = some ())
    (hexec : (s.syncIme m).exec m op = some (c, s₁, m₁))
    (hfit : s₁.autoIme.total_cycles + c < 18446744073709551616) :
    Cpu.step s m = (m₁.step_ppu c).map
      (fun m₂ => (c, { s₁.autoIme with
                        total_cycles := s₁.autoIme.total_cycles + c }, m₂)) :=
  step_pipeline s m op c s₁ m₁ hw hop hpeek hexec hfit

/-- The post-execute CPU state of a NOP at 0x0100. -/
def c1S1 : Cpu := { Cpu.new with pc := 0x101 }

/-- Witness for the amended C1: a NOP at the entry point costs 4 cycles, which
are added to the counter and forwarded to the PPU. -/
theorem C1_cycle_accounting_witness :
    Cpu.step Cpu.new (busWith romZ) = ((busWith romZ).step_ppu 4).map
      (fun m₂ => (4, { c1S1.autoIme with
                        total_cycles := c1S1.autoIme.total_cycles + 4 }, m₂)) :=
  C1_cycle_accounting Cpu.new (busWith romZ) 0x00 4 c1S1 (busWith romZ)
    (by decide) rfl rfl rfl (by decide)

/-! ### C9 -/

/-- The CPU state right after the decode/execute stage of CP n: flags set by
the comparison, PC advanced past the two instruction bytes. -/
def cpAfter (s : Cpu) (m : Memory) (n : Nat) : Cpu :=
  { s.syncIme m with f := if s.a = n then 0x80 else 0, pc := s.pc + 2 }

/-- C9: executing CP n (opcode 0xFE) from a non-watchdog state sets F to 0x80
when A equals the immediate operand and to 0x00 otherwise, leaves A (and every
other register but F and PC) unchanged, advances PC by 2, and returns 8
cycles.  The hypotheses state that the watchdog does not fire, that PC + 2
stays within 16 bits, that the fetch, operand and peek loads succeed, and that
the PPU advance at the end of `step` cannot panic. -/
theorem C9_cp_immediate (s : Cpu) (m : Memory) (n : Nat)
    (hw : s.pc ≠ 0x0038) (ht : s.total_cycles ≤ 50000) (hpc : s.pc + 2 ≤ 0xFFFF)
    (hop : m.read s.pc = some 0xFE)
    (hn : m.read (s.pc + 1) = some n)
    (hp2 : (m.read ((s.pc + 2) % 65536)).isSome)
    (hp3 : (m.read ((s.pc + 3) % 65536)).isSome)
    (hp4 : (m.read ((s.pc + 4) % 65536)).isSome)
    (hmode : m.ppu.mode < 4) (hline : m.ppu.line < 144)
    (hclock : m.ppu.mode_clock + 8 < 4294967296) :
    Cpu.step s m = (m.step_ppu 8).map
      (fun m₂ => (8, { s.syncIme m with
                        f := if s.a = n then 0x80 else 0,
                        pc := s.pc + 2,
                        total_cycles := s.total_cycles + 8 }, m₂)) ∧
      (m.step_ppu 8).isSome := by
  have hsp : (s.syncIme m).pc = s.pc := syncIme_pc s m
  have hchk1 : chk16 (s.pc + 1) = some (s.pc + 1) := by
    unfold chk16; rw [if_pos (by omega)]
  have hchk2 : chk16 (s.pc + 2) = some (s.pc + 2) := by
    unfold chk16; rw [if_pos hpc]
  have hexec : (s.syncIme m).exec m 0xFE = some (8, cpAfter s m n, m) := by
    simp only [Cpu.exec, cpAfter, hsp, hchk1, hchk2, hn, syncIme_a,
      Option.bind_eq_bind, Option.some_bind]
  have hw' : ¬ (s.pc = 0x0038 ∨ s.total_cycles > 50000) := by
    rintro (h | h)
    · exact hw h
    · omega
  have hop' : m.read (s.syncIme m).pc = some 0xFE := by rw [hsp]; exact hop
  have e1 : (s.pc + 1) % 65536 = s.pc + 1 := Nat.mod_eq_of_lt (by omega)
  have hpeek : (s.syncIme m).peekReads m = some () := by
    obtain ⟨v2, hv2⟩ := Option.isSome_iff_exists.mp hp2
    obtain ⟨v3, hv3⟩ := Option.isSome_iff_exists.mp hp3
    obtain ⟨v4, hv4⟩ := Option.isSome_iff_exists.mp hp4
    simp only [Cpu.peekReads, hsp, hop, e1, hn, hv2, hv3, hv4,
      Option.bind_eq_bind, Option.some_bind]
  have htot : (cpAfter s m n).total_cycles = s.total_cycles := by
    show (s.syncIme m).total_cycles = s.total_cycles
    exact syncIme_total s m
  have hauto : (cpAfter s m n).autoIme = cpAfter s m n := by
    apply autoIme_eq
    rw [htot]; omega
  have hfit : (cpAfter s m n).autoIme.total_cycles + 8 < 18446744073709551616 := by
    rw [hauto, htot]; omega
  have hpipe := step_pipeline s m 0xFE 8 (cpAfter s m n) m hw' hop' hpeek hexec hfit
  constructor
  · rw [hpipe]
    simp only [hauto, htot]
    rfl
  · obtain ⟨m', hm'⟩ := step_ppu_isSome m 8 hmode hline hclock
    rw [hm']
    rfl

/-- ROM image with `CP 0x42` (bytes FE 42) at the entry point. -/
def c9Rom : List Nat :=
  (List.range 0x150).map fun i =>
    if i = 0x100 then 0xFE else if i = 0x101 then 0x42 else 0

/-- Witness for C9: with A = 0x42 and operand 0x42, F becomes 0x80, A stays
0x42, PC advances to 0x0102 and the call returns 8 cycles. -/
theorem C9_cp_immediate_witness :
    Cpu.step { Cpu.new with a := 0x42 } (busWith c9Rom) =
      ((busWith c9Rom).step_ppu 8).map
        (fun m₂ => (8, { (Cpu.new : Cpu) with
                          a := 0x42,
                          f := 0x80,
                          pc := 0x102,
                          total_cycles := 8 }, m₂)) ∧
      ((busWith c9Rom).step_ppu 8).isSome :=
  C9_cp_immediate { Cpu.new with a := 0x42 } (busWith c9Rom) 0x42
    (by decide) (by decide) (by decide) rfl rfl rfl rfl rfl
    (by decide) (by decide) (by decide)

/-! ### C2 -/

/-- Overwriting the low bits of the status register with the mode leaves the
mode readable in the low two bits. -/
lemma low2_mirror (st k : Nat) (hk : k < 4) :
    ((st &&& 0xF8) ||| (k &&& 0x3)) &&& 0x3 = k := by
  have hmod : k &&& 3 = k % 4 := Nat.and_pow_two_sub_one_eq_mod k 2
  rw [Nat.and_distrib_right, Nat.and_assoc, Nat.and_assoc,
    (show (0xF8 &&& 0x3 : Nat) = 0 from rfl), Nat.and_zero, Nat.zero_or,
    (show ((0x3 : Nat) &&& 0x3) = 3 from rfl), hmod]
  omega

/-- The state invariant of the mode machine: the mode-local clock is below the
largest threshold, the scanline index is below 144 outside VBlank and between
144 and 153 inside VBlank. -/
def PpuInv (p : Ppu) : Prop :=
  p.mode_clock < 456 ∧
  ((p.mode = 0 ∨ p.mode = 2 ∨ p.mode = 3) ∧ p.line ≤ 143 ∨
    p.mode = 1 ∧ 144 ≤ p.line ∧ p.line ≤ 153)

/-- The claimed behaviour of one `advance(cycles)` call from state `p` to
state `p'`: the scanline index never exceeds 153, the low two bits of the
status register equal the numeric mode, and the four modes transition exactly
as described (thresholds 80 / 172 / 204 / 456, clock reset on transition,
scanline rendering at the Drawing-to-HBlank edge, VBlank entered exactly when
the incremented line reaches 144, line wrapped to 0 when it exceeds 153). -/
def PpuStepSpec (p : Ppu) (c : Nat) (p' : Ppu) : Prop :=
  p'.line ≤ 153 ∧
  p'.stat &&& 0x3 = p'.mode ∧
  (p.mode = 2 →
    if p.mode_clock + c ≥ 80 then
      p'.mode = 3 ∧ p'.mode_clock = 0 ∧ p'.line = p.line
    else p'.mode = 2 ∧ p'.mode_clock = p.mode_clock + c ∧ p'.line = p.line) ∧
  (p.mode = 3 →
    if p.mode_clock + c ≥ 172 then
      p'.mode = 0 ∧ p'.mode_clock = 0 ∧ p'.line = p.line ∧
        (Ppu.render_scanline { p with mode_clock := 0, mode := 0 }).map
          Ppu.frame_buffer = some p'.frame_buffer
    else p'.mode = 3 ∧ p'.mode_clock = p.mode_clock + c ∧ p'.line = p.line) ∧
  (p.mode = 0 →
    if p.mode_clock + c ≥ 204 then
      p'.mode_clock = 0 ∧ p'.line = p.line + 1 ∧
        (if p.line + 1 = 144 then p'.mode = 1 else p'.mode = 2)
    else p'.mode = 0 ∧ p'.mode_clock = p.mode_clock + c ∧ p'.line = p.line) ∧
  (p.mode = 1 →
    if p.mode_clock + c ≥ 456 then
      p'.mode_clock = 0 ∧
        (if p.line + 1 > 153 then p'.mode = 2 ∧ p'.line = 0
         else p'.mode = 1 ∧ p'.line = p.line + 1)
    else p'.mode = 1 ∧ p'.mode_clock = p.mode_clock + c ∧ p'.line = p.line)

/-- The PPU states reachable from `Ppu::new` by repeated `advance(cycles)`
calls (with each cycle argument below 2^31, as every CPU-produced cycle count
is). -/
inductive PpuReach : Ppu → Prop where
  | init : PpuReach Ppu.new
  | next (p p' : Ppu) (c : Nat) :
      PpuReach p → c < 2 ^ 31 → Ppu.step c p = some p' → PpuReach p'

/-- One `Ppu::step` from an invariant state succeeds, preserves the invariant
and follows the claimed transition table. -/
lemma ppu_step_char (p : Ppu) (c : Nat) (p' : Ppu) (hInv : PpuInv p) (hc : c < 2 ^ 31)
    (h : Ppu.step c p = some p') : PpuInv p' ∧ PpuStepSpec p c p' := by
  obtain ⟨hclk, hmode⟩ := hInv
  norm_num at hc
  have hg : ¬ (p.mode_clock + c ≥ 4294967296) := by omega
  simp only [Ppu.step, hg, Option.bind_eq_bind] at h
  rcases hmode with ⟨hm012, hl⟩ | ⟨hm, hl1, hl2⟩
  · rcases hm012 with hm | hm | hm
    · -- HBlank (mode 0)
      simp only [hm] at h
      by_cases hth : p.mode_clock + c ≥ 204
      · simp only [if_pos hth, if_neg (show ¬ (p.line + 1 ≥ 256) by omega)] at h
        by_cases h144 : p.line + 1 = 144
        · simp only [if_pos h144, Option.some_bind] at h
          injection h with h'
          subst h'
          refine ⟨⟨by dsimp only; omega, Or.inr ⟨rfl, by dsimp only; omega, by dsimp only; omega⟩⟩,
            by dsimp only; omega, low2_mirror p.stat 1 (by norm_num), ?_, ?_, ?_, ?_⟩
          · intro hx; exact absurd hx (by omega)
          · intro hx; exact absurd hx (by omega)
          · intro _
            rw [if_pos hth, if_pos h144]
            exact ⟨rfl, rfl, rfl⟩
          · intro hx; exact absurd hx (by omega)
        · simp only [if_neg h144, Option.some_bind] at h
          injection h with h'
          subst h'
          refine ⟨⟨by dsimp only; omega, Or.inl ⟨Or.inr (Or.inl rfl), by dsimp only; omega⟩⟩,
            by dsimp only; omega, low2_mirror p.stat 2 (by norm_num), ?_, ?_, ?_, ?_⟩
          · intro hx; exact absurd hx (by omega)
          · intro hx; exact absurd hx (by omega)
          · intro _
            rw [if_pos hth, if_neg h144]
            exact ⟨rfl, rfl, rfl⟩
          · intro hx; exact absurd hx (by omega)
      · simp only [if_neg hth, Option.some_bind] at h
        injection h with h'
        subst h'
        refine ⟨⟨by dsimp only; omega, Or.inl ⟨Or.inl rfl, by dsimp only; omega⟩⟩,
          by dsimp only; omega, low2_mirror p.stat 0 (by norm_num), ?_, ?_, ?_, ?_⟩
        · intro hx; exact absurd hx (by omega)
        · intro hx; exact absurd hx (by omega)
        · intro _
          rw [if_neg hth]
          exact ⟨rfl, rfl, rfl⟩
        · intro hx; exact absurd hx (by omega)
    · -- OAMScan (mode 2)
      simp only [hm] at h
      by_cases hth : p.mode_clock + c ≥ 80
      · simp only [if_pos hth, Option.some_bind] at h
        injection h with h'
        subst h'
        refine ⟨⟨by dsimp only; omega, Or.inl ⟨Or.inr (Or.inr rfl), by dsimp only; omega⟩⟩,
          by dsimp only; omega, low2_mirror p.stat 3 (by norm_num), ?_, ?_, ?_, ?_⟩
        · intro _
          rw [if_pos hth]
          exact ⟨rfl, rfl, rfl⟩
        · intro hx; exact absurd hx (by omega)
        · intro hx; exact absurd hx (by omega)
        · intro hx; exact absurd hx (by omega)
      · simp only [if_neg hth, Option.some_bind] at h
        injection h with h'
        subst h'
        refine ⟨⟨by dsimp only; omega, Or.inl ⟨Or.inr (Or.inl rfl), by dsimp only; omega⟩⟩,
          by dsimp only; omega, low2_mirror p.stat 2 (by norm_num), ?_, ?_, ?_, ?_⟩
        · intro _
          rw [if_neg hth]
          exact ⟨rfl, rfl, rfl⟩
        · intro hx; exact absurd hx (by omega)
        · intro hx; exact absurd hx (by omega)
        · intro hx; exact absurd hx (by omega)
    · -- Drawing (mode 3)
      simp only [hm] at h
      by_cases hth : p.mode_clock + c ≥ 172
      · simp only [if_pos hth] at h
        have hl144 : ({ p with mode_clock := 0, mode := 0 } : Ppu).line < 144 := by
          dsimp only; omega
        obtain ⟨fb, hr⟩ := render_scanline_frame _ hl144
        rw [hr] at h
        simp only [Option.some_bind] at h
        injection h with h'
        subst h'
        refine ⟨⟨by dsimp only; omega, Or.inl ⟨Or.inl rfl, by dsimp only; omega⟩⟩,
          by dsimp only; omega, low2_mirror p.stat 0 (by norm_num), ?_, ?_, ?_, ?_⟩
        · intro hx; exact absurd hx (by omega)
        · intro _
          rw [if_pos hth, hr]
          exact ⟨rfl, rfl, rfl, rfl⟩
        · intro hx; exact absurd hx (by omega)
        · intro hx; exact absurd hx (by omega)
      · simp only [if_neg hth, Option.some_bind] at h
        injection h with h'
        subst h'
        refine ⟨⟨by dsimp only; omega, Or.inl ⟨Or.inr (Or.inr rfl), by dsimp only; omega⟩⟩,
          by dsimp only; omega, low2_mirror p.stat 3 (by norm_num), ?_, ?_, ?_, ?_⟩
        · intro hx; exact absurd hx (by omega)
        · intro _
          rw [if_neg hth]
          exact ⟨rfl, rfl, rfl⟩
        · intro hx; exact absurd hx (by omega)
        · intro hx; exact absurd hx (by omega)
  · -- VBlank (mode 1)
    simp only [hm] at h
    by_cases hth : p.mode_clock + c ≥ 456
    · simp only [if_pos hth, if_neg (show ¬ (p.line + 1 ≥ 256) by omega)] at h
      by_cases h153 : p.line + 1 > 153
      · simp only [if_pos h153, Option.some_bind] at h
        injection h with h'
        subst h'
        refine ⟨⟨by dsimp only; omega, Or.inl ⟨Or.inr (Or.inl rfl), by dsimp only; omega⟩⟩,
          by dsimp only; omega, low2_mirror p.stat 2 (by norm_num), ?_, ?_, ?_, ?_⟩
        · intro hx; exact absurd hx (by omega)
        · intro hx; exact absurd hx (by omega)
        · intro hx; exact absurd hx (by omega)
        · intro _
          rw [if_pos hth, if_pos h153]
          exact ⟨rfl, rfl, rfl⟩
      · simp only [if_neg h153, Option.some_bind] at h
        injection h with h'
        subst h'
        refine ⟨⟨by dsimp only; omega, Or.inr ⟨rfl, by dsimp only; omega, by dsimp only; omega⟩⟩,
          by dsimp only; omega, low2_mirror p.stat 1 (by norm_num), ?_, ?_, ?_, ?_⟩
        · intro hx; exact absurd hx (by omega)
        · intro hx; exact absurd hx (by omega)
        · intro hx; exact absurd hx (by omega)
        · intro _
          rw [if_pos hth, if_neg h153]
          exact ⟨rfl, rfl, rfl⟩
    · simp only [if_neg hth, Option.some_bind] at h
      injection h with h'
      subst h'
      refine ⟨⟨by dsimp only; omega, Or.inr ⟨rfl, by dsimp only; omega, by dsimp only; omega⟩⟩,
        by dsimp only; omega, low2_mirror p.stat 1 (by norm_num), ?_, ?_, ?_, ?_⟩
      · intro hx; exact absurd hx (by omega)
      · intro hx; exact absurd hx (by omega)
      · intro hx; exact absurd hx (by omega)
      · intro _
        rw [if_neg hth]
        exact ⟨rfl, rfl, rfl⟩

/-- Every reachable PPU state satisfies the invariant. -/
lemma ppu_reach_inv (p : Ppu) (h : PpuReach p) : PpuInv p := by
  induction h with
  | init => exact ⟨by decide, Or.inl ⟨Or.inr (Or.inl rfl), by decide⟩⟩
  | next q q' c _ hc hstep ih => exact (ppu_step_char q c q' ih hc hstep).1

/-- C2: from any PPU state reachable from the initial OAMScan state by
repeated `advance` calls, one more `advance(c)` call follows exactly the
claimed mode transitions, keeps the scanline index at most 153, and leaves
the numeric mode mirrored in the low two bits of the status register. -/
theorem C2_mode_machine (p p' : Ppu) (c : Nat) (hreach : PpuReach p)
    (hc : c < 2 ^ 31) (h : Ppu.step c p = some p') : PpuStepSpec p c p' :=
  (ppu_step_char p c p' (ppu_reach_inv p hreach) hc h).2

/-- The PPU state after advancing the fresh PPU by 80 cycles: Drawing mode,
clock reset, status low bits 0b11. -/
def c2After : Ppu := { Ppu.new with mode := 3, stat := 0x83 }

/-- Witness for C2: the initial state is reachable, 80 cycles end OAMScan, and
the resulting state satisfies the claimed transition description. -/
theorem C2_mode_machine_witness :
    (80 < 2 ^ 31) ∧ Ppu.step 80 Ppu.new = some c2After ∧ PpuStepSpec Ppu.new 80 c2After :=
  ⟨by norm_num, rfl,
    C2_mode_machine Ppu.new c2After 80 PpuReach.init (by norm_num) rfl⟩
